import Mathlib

/-!
Verification of the turtl message-carrier specification against the sources
in `src/`. The repository ships the boundary header `src/include/turtl_core.h`
(declarations of the `turtlc_*` surface with documented contracts) and the
carrier test driver `src/carrier/test.c` (declarations of the `carrier_*`
surface and a send/recv/vacuum stress loop). The carrier implementation
itself is not under `src/`, so its behaviour is modelled from the spec;
the C parameter lists below are embedded verbatim from the declarations
that ARE in `src/`.
-/

namespace Turtl

/-- A byte string crossing the boundary, one `Nat` per byte. -/
abbrev Bytes := List Nat

/-! ## Embedded C declaration signatures (from `src/`) -/

/-- C parameter types appearing in the declarations in `src/`. -/
inductive CTy where
  | cstr        -- const char*
  | str         -- char*
  | bytesPtr    -- const uint8_t*
  | mutBytesPtr -- uint8_t*
  | byte        -- uint8_t
  | usize       -- size_t
  | usizePtr    -- size_t*
  | u64Ptr      -- uint64_t*
  deriving DecidableEq

/-- Parameter list of `turtlc_send(const uint8_t*, size_t)`,
from `src/include/turtl_core.h` line 50. -/
def turtlc_send_sig : List CTy := [CTy.bytesPtr, CTy.usize]

/-- Parameter list of `turtlc_recv(uint8_t, const char*, size_t*)`,
from `src/include/turtl_core.h` line 71. -/
def turtlc_recv_sig : List CTy := [CTy.byte, CTy.cstr, CTy.usizePtr]

/-- Parameter list of `turtlc_recv_event(uint8_t, size_t*)`,
from `src/include/turtl_core.h` line 91. -/
def turtlc_recv_event_sig : List CTy := [CTy.byte, CTy.usizePtr]

/-- Parameter list of `turtlc_free(const uint8_t*, size_t)`,
from `src/include/turtl_core.h` line 105. -/
def turtlc_free_sig : List CTy := [CTy.bytesPtr, CTy.usize]

/-- Parameter list of `carrier_send(char*, uint8_t*, size_t)`,
from `src/carrier/test.c` line 5: queue name, bytes, length. -/
def carrier_send_sig : List CTy := [CTy.str, CTy.mutBytesPtr, CTy.usize]

/-- Parameter list of `carrier_recv_nb(char*, uint64_t*)`,
from `src/carrier/test.c` line 6. -/
def carrier_recv_nb_sig : List CTy := [CTy.str, CTy.u64Ptr]

/-- Parameter list of `carrier_free(uint8_t*)`,
from `src/carrier/test.c` line 9: the pointer alone, no length. -/
def carrier_free_sig : List CTy := [CTy.mutBytesPtr]

/-- Whether a C parameter list contains a caller-supplied string argument
(either `char*` or `const char*`). -/
def hasStringParam (sig : List CTy) : Prop :=
  CTy.str ∈ sig ∨ CTy.cstr ∈ sig

/-! ## Carrier state (modelled from the spec) -/

/-- Modelled from the spec: an Outstanding Buffer Record of the Buffer
Ownership Ledger (spec paragraph 3 and 4.2; the ledger implementation is not
under `src/`): handle identity, size, claimed timestamp, and whether it was
already released. -/
structure BufRecord where
  handle : Nat
  size : Nat
  claimedAt : Nat
  released : Bool
  deriving DecidableEq

/-- Modelled from the spec: the carrier state (spec paragraphs 3, 4.1-4.3; the
carrier implementation behind the `carrier_*` externs of `src/carrier/test.c`
is not under `src/`). `queues` maps a queue name to its FIFO contents
(create-on-first-use: an unknown name maps to the empty queue), `known` lists
the names present in the queue store, `qActivity` holds each queue's
last-activity timestamp, `records` is the ownership ledger, `now` a logical
clock ticked by each operation, `down` the process-shutdown flag. -/
structure Carrier where
  queues : String → List Bytes
  known : List String
  qActivity : String → Nat
  records : List BufRecord
  nextHandle : Nat
  now : Nat
  down : Bool

/-- The carrier state before any operation. -/
def initCarrier : Carrier :=
  { queues := fun _ => [], known := [], qActivity := fun _ => 0,
    records := [], nextHandle := 0, now := 0, down := false }

/-- Pointwise update of a string-indexed map. -/
def qupd {α : Type} (f : String → α) (q : String) (v : α) : String → α :=
  fun q' => if q' = q then v else f q'

/-! ## Carrier operations (modelled from the spec) -/

/-- Modelled from the spec: `send(queue_name, bytes)` (spec 4.1 `enqueue` and
4.3 `send`; the implementation of the `carrier_send` extern is not under
`src/`). Appends the message to the named queue, creating it if absent,
stamps the queue's activity, and returns 0; it fails only on resource
exhaustion, which a total model cannot exhibit, so it always returns 0. -/
def carrier_send (c : Carrier) (q : String) (b : Bytes) : Int × Carrier :=
  (0,
   { c with
      queues := qupd c.queues q (c.queues q ++ [b]),
      known := if q ∈ c.known then c.known else c.known ++ [q],
      qActivity := qupd c.qActivity q c.now,
      now := c.now + 1 })

/-- Outcome of a receive at the boundary: a delivered buffer (handle plus
payload), the no-message sentinel, or an error. -/
inductive RecvOut where
  | msg (handle : Nat) (data : Bytes)
  | noMsg
  | err
  deriving DecidableEq

/-- The raw-buffer encoding of a receive outcome, from the contract in
`src/include/turtl_core.h` lines 63-70: a delivered message is a non-null
pointer (here `some handle`) with the payload length; no message is null
with length 0; an error is null with a length greater than 0. -/
def encodeRecv : RecvOut → Option Nat × Nat
  | RecvOut.msg h b => (some h, b.length)
  | RecvOut.noMsg => (none, 0)
  | RecvOut.err => (none, 1)

/-- Modelled from the spec: the non-blocking receive (spec 4.1
`dequeue_nonblocking` and 4.3 `recv`; the implementation of the
`carrier_recv_nb` extern is not under `src/`). Returns the no-message
sentinel immediately when the queue is empty or unknown; otherwise removes
the oldest message, records the buffer in the ownership ledger (ownership
transfers to the caller here), and returns it. A torn-down carrier reports
an error (spec 7, RecvError ShuttingDown). -/
def carrier_recv_nb (c : Carrier) (q : String) : RecvOut × Carrier :=
  if c.down then (RecvOut.err, c)
  else
    match c.queues q with
    | [] => (RecvOut.noMsg, c)
    | b :: rest =>
        (RecvOut.msg c.nextHandle b,
         { c with
            queues := qupd c.queues q rest,
            qActivity := qupd c.qActivity q c.now,
            records :=
              { handle := c.nextHandle, size := b.length,
                claimedAt := c.now, released := false } :: c.records,
            nextHandle := c.nextHandle + 1,
            now := c.now + 1 })

/-- The error taxonomy of the ownership ledger's release (spec 4.2, 7). -/
inductive FreeError where
  | UnknownHandle
  | DoubleFree
  deriving DecidableEq

/-- Modelled from the spec: `release(handle)` of the Buffer Ownership Ledger
(spec 4.2; the ledger implementation is not under `src/`). Fails with
`UnknownHandle` if the handle was never recorded, with `DoubleFree` if it was
already released; on success the record is marked released, which stands for
deallocating the underlying buffer. -/
def ledger_release : List BufRecord → Nat → Except FreeError (List BufRecord)
  | [], _ => Except.error FreeError.UnknownHandle
  | r :: rest, h =>
      if r.handle = h then
        if r.released then Except.error FreeError.DoubleFree
        else Except.ok ({ r with released := true } :: rest)
      else
        match ledger_release rest h with
        | Except.error e => Except.error e
        | Except.ok rest' => Except.ok (r :: rest')

/-- Looks a handle up in the ledger (first matching record). -/
def findRecord (rs : List BufRecord) (h : Nat) : Option BufRecord :=
  rs.find? (fun r => r.handle == h)

/-- The handles of buffers currently owned by the caller and not yet
reclaimed: outstanding (unreleased) records. -/
def liveHandles (rs : List BufRecord) : List Nat :=
  (rs.filter (fun r => !r.released)).map BufRecord.handle

/-- Modelled from the spec: the boundary `free` (spec 4.3 and the contract of
`turtlc_free` in `src/include/turtl_core.h` lines 93-105; the implementation
is not under `src/`). It delegates to the ledger's release on the handle; the
length argument is not consulted, as fixed by the `carrier_free(uint8_t*)`
declaration in `src/carrier/test.c` line 9, which receives the pointer alone.
Returns 0 on success, nonzero on failure. -/
def turtlc_free (c : Carrier) (h : Nat) (len : Nat) : Int × Carrier :=
  match ledger_release c.records h with
  | Except.error _ => (1, { c with now := c.now + 1 })
  | Except.ok rs => (0, { c with records := rs, now := c.now + 1 })

/-- The well-formedness invariant tying the ledger to the handle allocator:
every recorded handle was allocated before `nextHandle`. -/
def HandlesFresh (c : Carrier) : Prop :=
  ∀ r ∈ c.records, r.handle < c.nextHandle

/-! ## Vacuum (modelled from the spec) -/

/-- Modelled from the spec: the staleness threshold of the vacuum policy
(spec 4.3, a configurable design default of several minutes; the value is
not under `src/`), in logical clock units. -/
def staleness : Nat := 300

/-- Whether a ledger record is reclaimable at snapshot time `t0`: still
outstanding and claimed at least `staleness` ago. -/
def staleRecord (t0 : Nat) (r : BufRecord) : Bool :=
  !r.released && decide (r.claimedAt + staleness ≤ t0)

/-- Whether a queue is reclaimable at snapshot time `t0`: empty and idle for
at least `staleness`. -/
def idleQueue (c : Carrier) (t0 : Nat) (q : String) : Bool :=
  decide (c.queues q = []) && decide (c.qActivity q + staleness ≤ t0)

/-- Modelled from the spec: `vacuum()` (spec 4.3 and 4.1/4.2 sweeps; the
implementation of the `carrier_vacuum` extern of `src/carrier/test.c` line 8
is not under `src/`). The pass snapshots `now` once at its start and then
reclaims exactly the ledger records and queues whose last activity predates
that snapshot by the staleness threshold, returning the reclaimed count.
Concurrent send/recv/free are modelled as atomic steps ordered before or
after the pass, which reads its timestamps under that same atomicity. -/
def carrier_vacuum (c : Carrier) : Nat × Carrier :=
  let t0 := c.now
  let reclaimed :=
    (c.records.filter (staleRecord t0)).length
      + (c.known.filter (idleQueue c t0)).length
  (reclaimed,
   { c with
      records := c.records.filter (fun r => !staleRecord t0 r),
      known := c.known.filter (fun q => !idleQueue c t0 q),
      now := c.now + 1 })

/-! ## Iterated send and receive (the pattern of `src/carrier/test.c` main) -/

/-- Sends each payload of `bs` in order into queue `q`. -/
def sendAll (c : Carrier) (q : String) (bs : List Bytes) : Carrier :=
  bs.foldl (fun acc b => (carrier_send acc q b).2) c

/-- Performs `n` non-blocking receives on queue `q`, collecting delivered
payloads in order; stops early on a non-message outcome. -/
def recvAll : Carrier → String → Nat → List Bytes × Carrier
  | c, _, 0 => ([], c)
  | c, q, n + 1 =>
      match carrier_recv_nb c q with
      | (RecvOut.msg _ b, c') =>
          let p := recvAll c' q n
          (b :: p.1, p.2)
      | (_, c') => ([], c')

/-! ## Response Router (modelled from the spec) -/

/-- Modelled from the spec: a response-path message as the Response Router
sees it (spec paragraphs 3 and 4.4; the router implementation is not under
`src/`): the correlation id extracted from the payload, plus the payload. -/
structure RMsg where
  corrId : String
  body : Bytes
  deriving DecidableEq

/-- Modelled from the spec: the Response Router state (spec 4.4; the
implementation is not under `src/`): one shared responses queue and one
shared events queue, physically separate. -/
structure Router where
  responses : List RMsg
  events : List RMsg
  deriving DecidableEq

/-- The router before any message arrives. -/
def initRouter : Router := { responses := [], events := [] }

/-- Removes the first element satisfying `p`, returning it and the list with
only that element taken out; elements before and after it stay in place. -/
def extractFirst {α : Type} (p : α → Bool) : List α → Option α × List α
  | [] => (none, [])
  | x :: xs =>
      if p x then (some x, xs)
      else
        let r := extractFirst p xs
        (r.1, x :: r.2)

/-- Modelled from the spec: `recv_response(msg_id, ...)` (spec 4.4 and the
`turtlc_recv` contract in `src/include/turtl_core.h` lines 52-71; the
implementation is not under `src/`). An empty `msgId` (the header's null or
empty string) takes the next available response; a nonempty `msgId` scans the
responses queue for the first message whose embedded correlation id matches,
removes only that one, and leaves every other queued response in place. -/
def recv_response (rt : Router) (msgId : String) : Option RMsg × Router :=
  if msgId = "" then
    match rt.responses with
    | [] => (none, rt)
    | m :: rest => (some m, { rt with responses := rest })
  else
    let r := extractFirst (fun m => m.corrId == msgId) rt.responses
    (r.1, { rt with responses := r.2 })

/-- Modelled from the spec: `recv_event` (spec 4.4 and the
`turtlc_recv_event` contract in `src/include/turtl_core.h` lines 73-91; the
implementation is not under `src/`): a plain FIFO dequeue from the events
queue, uncorrelated by design. -/
def recv_event (rt : Router) : Option RMsg × Router :=
  match rt.events with
  | [] => (none, rt)
  | m :: rest => (some m, { rt with events := rest })

/-- Modelled from the spec: the engine enqueues a correlated reply on the
responses queue (spec paragraph 2 data flow; not under `src/`). -/
def push_response (rt : Router) (m : RMsg) : Router :=
  { rt with responses := rt.responses ++ [m] }

/-- Modelled from the spec: the engine enqueues an uncorrelated event on the
events queue (spec paragraph 2 data flow; not under `src/`). -/
def push_event (rt : Router) (m : RMsg) : Router :=
  { rt with events := rt.events ++ [m] }

/-- An operation on the router: the engine pushing a reply on one of the two
channels, or a caller retrieving from one of them. -/
inductive ROp where
  | pushR (m : RMsg)
  | pushE (m : RMsg)
  | recvR (msgId : String)
  | recvE
  deriving DecidableEq

/-- One router operation: the next state and the message it delivered. -/
def rstep (rt : Router) : ROp → Router × Option RMsg
  | ROp.pushR m => (push_response rt m, none)
  | ROp.pushE m => (push_event rt m, none)
  | ROp.recvR msgId =>
      let r := recv_response rt msgId
      (r.2, r.1)
  | ROp.recvE =>
      let r := recv_event rt
      (r.2, r.1)

/-- Runs a sequence of router operations. -/
def runOps (rt : Router) : List ROp → Router
  | [] => rt
  | op :: ops => runOps (rstep rt op).1 ops

/-- The messages a trace enqueued as responses. -/
def sentResponses : List ROp → List RMsg
  | [] => []
  | ROp.pushR m :: ops => m :: sentResponses ops
  | _ :: ops => sentResponses ops

/-- The messages a trace enqueued as events. -/
def sentEvents : List ROp → List RMsg
  | [] => []
  | ROp.pushE m :: ops => m :: sentEvents ops
  | _ :: ops => sentEvents ops

/-! ## Blocking queue under interleaving (modelled from the spec) -/

/-- Modelled from the spec: the state of one queue with blocking consumers
(spec 4.1 `dequeue_blocking` and 5; the implementation behind the
`carrier_recv` extern of `src/carrier/test.c` line 7 is not under `src/`):
queue contents, the ids of receivers currently blocked on the queue's
condition, the log of deliveries, and the shutdown flag. -/
structure BQueue where
  buf : List Bytes
  waiting : List Nat
  delivered : List (Nat × Bytes)
  down : Bool
  deriving DecidableEq

/-- The blocking queue before any activity. -/
def initBQueue : BQueue :=
  { buf := [], waiting := [], delivered := [], down := false }

/-- An atomic event in an interleaving on the blocking queue. -/
inductive BEv where
  | send (b : Bytes)
  | block (rid : Nat)
  | wake (rid : Nat) (b : Bytes)
  | stop
  | cancel (rid : Nat)
  deriving DecidableEq

/-- Modelled from the spec: the interleaving semantics of concurrent sends
and blocking receives on one queue (spec 4.1 and 5; the lock-and-condition
implementation is not under `src/`). Threads take atomic turns: `send`
appends and makes a waiter runnable; `block` suspends a receiver on the
queue's condition; `wake rid b` lets a blocked receiver consume the oldest
message `b` and is enabled only when a message is actually present (a
spurious wakeup that finds the queue empty re-blocks, so it takes no step
here); `stop` signals shutdown; `cancel` unblocks a waiter after shutdown
with no delivery. -/
inductive BStep : BQueue → BEv → BQueue → Prop where
  | send (s : BQueue) (b : Bytes) :
      BStep s (BEv.send b) { s with buf := s.buf ++ [b] }
  | block (s : BQueue) (rid : Nat) (hw : rid ∉ s.waiting) :
      BStep s (BEv.block rid) { s with waiting := rid :: s.waiting }
  | wake (s : BQueue) (rid : Nat) (b : Bytes) (rest : List Bytes)
      (hw : rid ∈ s.waiting) (hb : s.buf = b :: rest) :
      BStep s (BEv.wake rid b)
        { s with buf := rest, waiting := s.waiting.erase rid,
                 delivered := s.delivered ++ [(rid, b)] }
  | stop (s : BQueue) :
      BStep s BEv.stop { s with down := true }
  | cancel (s : BQueue) (rid : Nat) (hd : s.down = true)
      (hw : rid ∈ s.waiting) :
      BStep s (BEv.cancel rid) { s with waiting := s.waiting.erase rid }

/-- A run of the interleaving semantics along a list of events. -/
inductive BTrace : BQueue → List BEv → BQueue → Prop where
  | nil (s : BQueue) : BTrace s [] s
  | cons {s s1 s2 : BQueue} {e : BEv} {tr : List BEv}
      (hs : BStep s e s1) (ht : BTrace s1 tr s2) : BTrace s (e :: tr) s2

/-- The payloads a trace sent, in order. -/
def sentOf : List BEv → List Bytes
  | [] => []
  | BEv.send b :: tr => b :: sentOf tr
  | _ :: tr => sentOf tr

/-! ## Concrete states used to instantiate the theorems -/

/-- A carrier holding one empty-payload message on queue `core`. -/
def c9state : Carrier := (carrier_send initCarrier "core" []).2

/-- A carrier holding one nonempty message on queue `core`. -/
def c9good : Carrier := (carrier_send initCarrier "core" [7]).2

/-- The carrier after receiving the single message of `c9good`. -/
def c3after : Carrier := (carrier_recv_nb (carrier_send initCarrier "core" [5]).2 "core").2

/-- A fresh outstanding record, claimed at time 0. -/
def c6rec : BufRecord := { handle := 0, size := 3, claimedAt := 0, released := false }

/-- A carrier with one fresh record and one known queue, at time 0. -/
def c6ex : Carrier := { initCarrier with records := [c6rec], known := ["core"] }

/-- A three-event interleaving: one send, one receiver blocking, one wakeup. -/
def c8tr : List BEv := [BEv.send [1], BEv.block 0, BEv.wake 0 [1]]

/-- The blocking-queue state after `c8tr`. -/
def c8sF : BQueue := { buf := [], waiting := [], delivered := [(0, [1])], down := false }

end Turtl

namespace Turtl

/-! ## Helper lemmas -/

theorem qupd_self {α : Type} (f : String → α) (q : String) (v : α) :
    qupd f q v q = v := by
  simp [qupd]

theorem qupd_other {α : Type} (f : String → α) (q q' : String) (v : α)
    (h : q' ≠ q) : qupd f q v q' = f q' := by
  simp [qupd, h]

theorem carrier_send_down (c : Carrier) (q : String) (b : Bytes) :
    (carrier_send c q b).2.down = c.down := rfl

theorem sendAll_down (c : Carrier) (q : String) (bs : List Bytes) :
    (sendAll c q bs).down = c.down := by
  induction bs generalizing c with
  | nil => rfl
  | cons b bs ih => simpa [sendAll] using ih (carrier_send c q b).2

theorem sendAll_queues_self (c : Carrier) (q : String) (bs : List Bytes) :
    (sendAll c q bs).queues q = c.queues q ++ bs := by
  induction bs generalizing c with
  | nil => simp [sendAll]
  | cons b bs ih =>
      have h := ih (carrier_send c q b).2
      simp only [sendAll, List.foldl_cons] at h ⊢
      rw [h]
      simp [carrier_send, qupd_self]

theorem sendAll_queues_other (c : Carrier) (q q' : String) (bs : List Bytes)
    (h : q' ≠ q) : (sendAll c q bs).queues q' = c.queues q' := by
  induction bs generalizing c with
  | nil => simp [sendAll]
  | cons b bs ih =>
      have hstep := ih (carrier_send c q b).2
      simp only [sendAll, List.foldl_cons] at hstep ⊢
      rw [hstep]
      simp [carrier_send, qupd_other _ _ _ _ h]

theorem recvAll_take (q : String) :
    ∀ (n : Nat) (c : Carrier), c.down = false → n ≤ (c.queues q).length →
      (recvAll c q n).1 = (c.queues q).take n := by
  intro n
  induction n with
  | zero => intro c _ _; simp [recvAll]
  | succ n ih =>
      intro c hdown hlen
      cases hq : c.queues q with
      | nil => rw [hq] at hlen; simp at hlen
      | cons b rest =>
          have hstep : carrier_recv_nb c q =
              (RecvOut.msg c.nextHandle b,
               { c with
                  queues := qupd c.queues q rest,
                  qActivity := qupd c.qActivity q c.now,
                  records :=
                    { handle := c.nextHandle, size := b.length,
                      claimedAt := c.now, released := false } :: c.records,
                  nextHandle := c.nextHandle + 1,
                  now := c.now + 1 }) := by
            simp [carrier_recv_nb, hdown, hq]
          have hlen' : n ≤ rest.length := by
            rw [hq] at hlen
            simpa using Nat.le_of_succ_le_succ hlen
          have hrec := ih
            { c with
                queues := qupd c.queues q rest,
                qActivity := qupd c.qActivity q c.now,
                records :=
                  { handle := c.nextHandle, size := b.length,
                    claimedAt := c.now, released := false } :: c.records,
                nextHandle := c.nextHandle + 1,
                now := c.now + 1 }
            hdown (by simpa [qupd_self] using hlen')
          simp only [recvAll, hstep, hq, List.take_succ_cons]
          rw [hrec]
          simp [qupd_self]

theorem extractFirst_mem_rest {α : Type} (p : α → Bool) :
    ∀ (l : List α) (x : α), x ∈ (extractFirst p l).2 → x ∈ l := by
  intro l
  induction l with
  | nil => intro x hx; simp [extractFirst] at hx
  | cons y ys ih =>
      intro x hx
      by_cases hp : p y = true
      · simp [extractFirst, hp] at hx
        exact List.mem_cons_of_mem _ hx
      · simp [extractFirst, hp] at hx
        rcases hx with hx | hx
        · exact hx ▸ List.mem_cons_self _ _
        · exact List.mem_cons_of_mem _ (ih x hx)

theorem extractFirst_found {α : Type} (p : α → Bool) :
    ∀ (l : List α) (m : α), (extractFirst p l).1 = some m → m ∈ l ∧ p m = true := by
  intro l
  induction l with
  | nil => intro m hm; simp [extractFirst] at hm
  | cons y ys ih =>
      intro m hm
      by_cases hp : p y = true
      · simp [extractFirst, hp] at hm
        exact ⟨hm ▸ List.mem_cons_self _ _, hm ▸ hp⟩
      · simp [extractFirst, hp] at hm
        rcases ih m hm with ⟨h1, h2⟩
        exact ⟨List.mem_cons_of_mem _ h1, h2⟩

theorem extractFirst_keeps {α : Type} (p : α → Bool) :
    ∀ (l : List α) (x : α), x ∈ l → p x = false → x ∈ (extractFirst p l).2 := by
  intro l
  induction l with
  | nil => intro x hx _; simp at hx
  | cons y ys ih =>
      intro x hx hpx
      by_cases hp : p y = true
      · have hxy : x ≠ y := by
          intro he; rw [he, hp] at hpx; simp at hpx
        rcases List.mem_cons.mp hx with he | hmem
        · exact absurd he hxy
        · simp [extractFirst, hp]
          exact hmem
      · rcases List.mem_cons.mp hx with he | hmem
        · simp [extractFirst, hp, he]
        · simp [extractFirst, hp]
          exact Or.inr (ih x hmem hpx)

theorem findRecord_none_release (h2 : Nat) :
    ∀ (rs : List BufRecord), findRecord rs h2 = none →
      ledger_release rs h2 = Except.error FreeError.UnknownHandle := by
  intro rs
  induction rs with
  | nil => intro _; rfl
  | cons r rest ih =>
      intro hfind
      cases hpred : (r.handle == h2) with
      | true =>
          exfalso
          simp [findRecord, List.find?_cons, hpred] at hfind
      | false =>
          have hrest : findRecord rest h2 = none := by
            simpa [findRecord, List.find?_cons, hpred] using hfind
          have hne : r.handle ≠ h2 := by simpa using hpred
          simp [ledger_release, hne, ih hrest]

theorem recv_response_events_eq (rt : Router) (msgId : String) :
    (recv_response rt msgId).2.events = rt.events := by
  by_cases hid : msgId = ""
  · cases hresp : rt.responses <;> simp [recv_response, hid, hresp]
  · simp [recv_response, hid]

theorem recv_response_responses_sub (rt : Router) (msgId : String) (m : RMsg) :
    m ∈ (recv_response rt msgId).2.responses → m ∈ rt.responses := by
  by_cases hid : msgId = ""
  · cases hresp : rt.responses with
    | nil => simp [recv_response, hid, hresp]
    | cons m0 rest =>
        intro hm
        simp [recv_response, hid, hresp] at hm
        exact List.mem_cons_of_mem _ hm
  · intro hm
    simp [recv_response, hid] at hm
    exact extractFirst_mem_rest _ _ _ hm

theorem recv_response_mem (rt : Router) (msgId : String) (m : RMsg) :
    (recv_response rt msgId).1 = some m → m ∈ rt.responses := by
  by_cases hid : msgId = ""
  · cases hresp : rt.responses with
    | nil => simp [recv_response, hid, hresp]
    | cons m0 rest =>
        intro hm
        simp [recv_response, hid, hresp] at hm
        exact hm ▸ List.mem_cons_self _ _
  · intro hm
    simp [recv_response, hid] at hm
    exact (extractFirst_found _ _ _ hm).1

theorem recv_event_responses_eq (rt : Router) :
    (recv_event rt).2.responses = rt.responses := by
  cases hev : rt.events <;> simp [recv_event, hev]

theorem recv_event_events_sub (rt : Router) (m : RMsg) :
    m ∈ (recv_event rt).2.events → m ∈ rt.events := by
  cases hev : rt.events with
  | nil => simp [recv_event, hev]
  | cons m0 rest =>
      intro hm
      simp [recv_event, hev] at hm
      exact List.mem_cons_of_mem _ hm

theorem recv_event_mem (rt : Router) (m : RMsg) :
    (recv_event rt).1 = some m → m ∈ rt.events := by
  cases hev : rt.events with
  | nil => simp [recv_event, hev]
  | cons m0 rest =>
      intro hm
      simp [recv_event, hev] at hm
      exact hm ▸ List.mem_cons_self _ _

theorem runOps_responses_sub :
    ∀ (ops : List ROp) (rt : Router) (m : RMsg),
      m ∈ (runOps rt ops).responses → m ∈ rt.responses ∨ m ∈ sentResponses ops := by
  intro ops
  induction ops with
  | nil => intro rt m hm; exact Or.inl (by simpa [runOps] using hm)
  | cons op ops ih =>
      intro rt m hm
      simp only [runOps] at hm
      cases op with
      | pushR m0 =>
          rcases ih _ m hm with hmem | hsent
          · simp [rstep, push_response] at hmem
            rcases hmem with hmem | hmem
            · exact Or.inl hmem
            · exact Or.inr (by simp [sentResponses, hmem])
          · exact Or.inr (by simp [sentResponses, hsent])
      | pushE m0 =>
          rcases ih _ m hm with hmem | hsent
          · exact Or.inl (by simpa [rstep, push_event] using hmem)
          · exact Or.inr (by simpa [sentResponses] using hsent)
      | recvR msgId =>
          rcases ih _ m hm with hmem | hsent
          · exact Or.inl (recv_response_responses_sub rt msgId m
              (by simpa [rstep] using hmem))
          · exact Or.inr (by simpa [sentResponses] using hsent)
      | recvE =>
          rcases ih _ m hm with hmem | hsent
          · exact Or.inl (by
              rw [← recv_event_responses_eq rt]
              simpa [rstep] using hmem)
          · exact Or.inr (by simpa [sentResponses] using hsent)

theorem runOps_events_sub :
    ∀ (ops : List ROp) (rt : Router) (m : RMsg),
      m ∈ (runOps rt ops).events → m ∈ rt.events ∨ m ∈ sentEvents ops := by
  intro ops
  induction ops with
  | nil => intro rt m hm; exact Or.inl (by simpa [runOps] using hm)
  | cons op ops ih =>
      intro rt m hm
      simp only [runOps] at hm
      cases op with
      | pushR m0 =>
          rcases ih _ m hm with hmem | hsent
          · exact Or.inl (by simpa [rstep, push_response] using hmem)
          · exact Or.inr (by simpa [sentEvents] using hsent)
      | pushE m0 =>
          rcases ih _ m hm with hmem | hsent
          · simp [rstep, push_event] at hmem
            rcases hmem with hmem | hmem
            · exact Or.inl hmem
            · exact Or.inr (by simp [sentEvents, hmem])
          · exact Or.inr (by simp [sentEvents, hsent])
      | recvR msgId =>
          rcases ih _ m hm with hmem | hsent
          · exact Or.inl (by
              rw [← recv_response_events_eq rt msgId]
              simpa [rstep] using hmem)
          · exact Or.inr (by simpa [sentEvents] using hsent)
      | recvE =>
          rcases ih _ m hm with hmem | hsent
          · exact Or.inl (recv_event_events_sub rt m (by simpa [rstep] using hmem))
          · exact Or.inr (by simpa [sentEvents] using hsent)

theorem btrace_conservation :
    ∀ {s0 s : BQueue} {tr : List BEv}, BTrace s0 tr s →
      List.map Prod.snd s.delivered ++ s.buf
        = List.map Prod.snd s0.delivered ++ s0.buf ++ sentOf tr := by
  intro s0 s tr ht
  induction ht with
  | nil s => simp [sentOf]
  | cons hs _ ih =>
      cases hs with
      | send b =>
          rw [ih]
          simp [sentOf, List.append_assoc]
      | block rid hw => rw [ih]; simp [sentOf]
      | wake rid b rest hw hb =>
          rw [ih]
          simp [sentOf, hb, List.append_assoc]
      | stop => rw [ih]; simp [sentOf]
      | cancel rid hd hw => rw [ih]; simp [sentOf]

theorem recv_nb_msg_inv (c : Carrier) (q : String) (h : Nat) (b : Bytes)
    (c' : Carrier) (hrecv : carrier_recv_nb c q = (RecvOut.msg h b, c')) :
    h = c.nextHandle ∧
    c'.records =
      { handle := h, size := b.length, claimedAt := c.now, released := false }
        :: c.records := by
  cases hdown : c.down with
  | true => simp [carrier_recv_nb, hdown] at hrecv
  | false =>
      cases hq : c.queues q with
      | nil => simp [carrier_recv_nb, hdown, hq] at hrecv
      | cons b0 rest =>
          simp [carrier_recv_nb, hdown, hq] at hrecv
          obtain ⟨⟨h1, h2⟩, h3⟩ := hrecv
          subst h1
          subst h2
          refine ⟨rfl, ?_⟩
          rw [← h3]

theorem release_head_fresh (rs : List BufRecord) (h sz t : Nat) :
    ledger_release
      ({ handle := h, size := sz, claimedAt := t, released := false } :: rs) h
      = Except.ok
          ({ handle := h, size := sz, claimedAt := t, released := true } :: rs) := by
  simp [ledger_release]

theorem release_head_released (rs : List BufRecord) (h sz t : Nat) :
    ledger_release
      ({ handle := h, size := sz, claimedAt := t, released := true } :: rs) h
      = Except.error FreeError.DoubleFree := by
  simp [ledger_release]

theorem not_mem_live_of_fresh (rs : List BufRecord) (h sz t : Nat)
    (hf : ∀ r ∈ rs, r.handle < h) :
    h ∉ liveHandles
      ({ handle := h, size := sz, claimedAt := t, released := true } :: rs) := by
  intro hmem
  simp [liveHandles, List.mem_filter, List.mem_map] at hmem
  rcases hmem with ⟨r, ⟨hr, _⟩, hrh⟩
  have hlt := hf r hr
  rw [hrh] at hlt
  exact Nat.lt_irrefl h hlt

/-! ## Claim theorems -/

/-- C1: for every queue `q` and every sequence of sends of `b1, ..., bn`
followed by `n` successful receives by a single consumer, the receives
return `b1, ..., bn` in exactly the order sent (FIFO per queue), and sends
into `q` leave every other queue untouched. -/
theorem claim_C1_fifo_per_queue (c : Carrier) (q : String) (bs : List Bytes)
    (hdown : c.down = false) (hq : c.queues q = []) :
    (recvAll (sendAll c q bs) q bs.length).1 = bs ∧
    (∀ q' : String, q' ≠ q → (sendAll c q bs).queues q' = c.queues q') := by
  constructor
  · have hq1 : (sendAll c q bs).queues q = bs := by
      rw [sendAll_queues_self, hq]; simp
    have hd1 : (sendAll c q bs).down = false := by rw [sendAll_down]; exact hdown
    have := recvAll_take q bs.length (sendAll c q bs) hd1 (by rw [hq1])
    rw [this, hq1, List.take_length]
  · intro q' hne
    exact sendAll_queues_other c q q' bs hne

/-- Witness for C1: two messages sent to `core` from the initial carrier come
back in send order. -/
theorem claim_C1_witness :
    (recvAll (sendAll initCarrier "core" [[1], [2]]) "core"
      (List.length [[1], [2]])).1 = [[1], [2]] :=
  (claim_C1_fifo_per_queue initCarrier "core" [[1], [2]] rfl rfl).1

/-- C5: a non-blocking receive on an empty (or never-created, hence empty)
queue of a live carrier returns the no-message sentinel immediately and
unchanged state; the sentinel encodes as a null buffer of length 0, and a
null buffer with positive length is the encoding of an error alone, never of
an empty queue. -/
theorem claim_C5_nonblocking_no_message (c : Carrier) (q : String)
    (hdown : c.down = false) (hq : c.queues q = []) :
    carrier_recv_nb c q = (RecvOut.noMsg, c) ∧
    encodeRecv RecvOut.noMsg = (none, 0) ∧
    (∀ r : RecvOut, (encodeRecv r).1 = none → 0 < (encodeRecv r).2 →
      r = RecvOut.err) := by
  refine ⟨?_, rfl, ?_⟩
  · simp [carrier_recv_nb, hdown, hq]
  · intro r hnull hpos
    cases r with
    | msg h b => simp [encodeRecv] at hnull
    | noMsg => simp [encodeRecv] at hpos
    | err => rfl

/-- Witness for C5: the initial carrier has no message on `core`. -/
theorem claim_C5_witness :
    carrier_recv_nb initCarrier "core" = (RecvOut.noMsg, initCarrier) :=
  (claim_C5_nonblocking_no_message initCarrier "core" rfl rfl).1

/-- C7 counterexample: the boundary-facing send, `turtlc_send(const uint8_t*,
size_t)` of `src/include/turtl_core.h`, has no caller-supplied queue-name
string among its parameters. -/
theorem claim_C7_counterexample : ¬ hasStringParam turtlc_send_sig := by
  unfold hasStringParam turtlc_send_sig
  decide

/-- C7 amended: the boundary-facing `turtlc_send` takes only the byte buffer
and its length — no queue-name parameter — while the carrier-level
`carrier_send` is the send that takes a caller-supplied queue-name string
together with the buffer; it enqueues the bytes as a message on the queue
named by that argument and returns 0 (failing only on resource exhaustion,
which the total model cannot exhibit). -/
theorem claim_C7_send_amended :
    hasStringParam carrier_send_sig ∧
    turtlc_send_sig = [CTy.bytesPtr, CTy.usize] ∧
    (∀ (c : Carrier) (q : String) (b : Bytes),
      (carrier_send c q b).1 = 0 ∧
      (carrier_send c q b).2.queues q = c.queues q ++ [b]) := by
  refine ⟨?_, rfl, ?_⟩
  · unfold hasStringParam carrier_send_sig
    decide
  · intro c q b
    exact ⟨rfl, by simp [carrier_send, qupd_self]⟩

/-- C9 counterexample: after sending an empty payload, the non-blocking
receive returns a non-null buffer whose length is 0, so a non-null return
does not always carry a strictly positive length. -/
theorem claim_C9_counterexample :
    (encodeRecv (carrier_recv_nb c9state "core").1).1.isSome = true ∧
    (encodeRecv (carrier_recv_nb c9state "core").1).2 = 0 := by
  exact ⟨rfl, rfl⟩

/-- C9 amended: provided every message queued on `q` is non-empty, a
non-blocking receive that delivers a message yields a non-null buffer with
strictly positive length (so the test driver's guard frees every delivered
message); independently of that proviso, the three outcomes are
unambiguously distinguished by the pair (pointer is null, length is zero). -/
theorem claim_C9_nonnull_amended (c : Carrier) (q : String)
    (hdown : c.down = false) (hne : ∀ b ∈ c.queues q, b ≠ ([] : Bytes)) :
    (∀ (h : Nat) (b : Bytes), (carrier_recv_nb c q).1 = RecvOut.msg h b →
      (encodeRecv (RecvOut.msg h b)).1.isSome = true ∧
      0 < (encodeRecv (RecvOut.msg h b)).2) ∧
    (∀ r : RecvOut, ((encodeRecv r).1 = none ∧ (encodeRecv r).2 = 0) ↔
      r = RecvOut.noMsg) ∧
    (∀ r : RecvOut, ((encodeRecv r).1 = none ∧ 0 < (encodeRecv r).2) ↔
      r = RecvOut.err) ∧
    (∀ r : RecvOut, (encodeRecv r).1.isSome = true ↔
      ∃ (h : Nat) (b : Bytes), r = RecvOut.msg h b) := by
  refine ⟨?_, ?_, ?_, ?_⟩
  · intro h b heq
    cases hq : c.queues q with
    | nil => simp [carrier_recv_nb, hdown, hq] at heq
    | cons b0 rest =>
        simp [carrier_recv_nb, hdown, hq] at heq
        have hb0 : b0 ≠ ([] : Bytes) :=
          hne b0 (by rw [hq]; exact List.mem_cons_self _ _)
        have hb : b ≠ ([] : Bytes) := heq.2 ▸ hb0
        refine ⟨rfl, ?_⟩
        simpa [encodeRecv] using List.length_pos.mpr hb
  · intro r
    cases r <;> simp [encodeRecv]
  · intro r
    cases r <;> simp [encodeRecv]
  · intro r
    cases r <;> simp [encodeRecv]

/-- Witness for C9: the nonempty message `[7]` is delivered with a non-null
buffer and positive length. -/
theorem claim_C9_witness :
    (encodeRecv (RecvOut.msg 0 [7])).1.isSome = true ∧
    0 < (encodeRecv (RecvOut.msg 0 [7])).2 :=
  (claim_C9_nonnull_amended c9good "core" rfl (by decide)).1 0 [7] rfl

/-- C3: for a handle delivered by a receive, the first free succeeds
(returns 0) and deallocates the underlying buffer (the handle leaves the
live set); a second free of the same handle fails with `DoubleFree`
(nonzero status at the boundary); and a free of a handle the ownership
ledger never recorded fails with `UnknownHandle`. -/
theorem claim_C3_free_exactly_once (c : Carrier) (q : String) (h : Nat)
    (b : Bytes) (c' : Carrier) (hfresh : HandlesFresh c)
    (hrecv : carrier_recv_nb c q = (RecvOut.msg h b, c')) :
    (turtlc_free c' h b.length).1 = 0 ∧
    h ∉ liveHandles ((turtlc_free c' h b.length).2.records) ∧
    ledger_release ((turtlc_free c' h b.length).2.records) h
      = Except.error FreeError.DoubleFree ∧
    (turtlc_free ((turtlc_free c' h b.length).2) h b.length).1 ≠ 0 ∧
    (∀ h2 : Nat, findRecord c'.records h2 = none →
      ledger_release c'.records h2 = Except.error FreeError.UnknownHandle) := by
  obtain ⟨hh, hrec⟩ := recv_nb_msg_inv c q h b c' hrecv
  have hfr : ∀ r ∈ c.records, r.handle < h := by
    rw [hh]; exact hfresh
  have hok : ledger_release c'.records h =
      Except.ok
        ({ handle := h, size := b.length, claimedAt := c.now, released := true }
          :: c.records) := by
    rw [hrec]; exact release_head_fresh c.records h b.length c.now
  have hfree1 : turtlc_free c' h b.length =
      (0, { c' with
              records :=
                { handle := h, size := b.length, claimedAt := c.now,
                  released := true } :: c.records,
              now := c'.now + 1 }) := by
    simp [turtlc_free, hok]
  refine ⟨by rw [hfree1], ?_, ?_, ?_, ?_⟩
  · rw [hfree1]
    exact not_mem_live_of_fresh c.records h b.length c.now hfr
  · rw [hfree1]
    exact release_head_released c.records h b.length c.now
  · rw [hfree1]
    simp [turtlc_free, release_head_released c.records h b.length c.now]
  · intro h2 hnone
    exact findRecord_none_release h2 c'.records hnone

/-- Witness for C3: receiving the single message `[5]` from `core` and
freeing its handle once returns status 0. -/
theorem claim_C3_witness : (turtlc_free c3after 0 (List.length [5])).1 = 0 :=
  (claim_C3_free_exactly_once (carrier_send initCarrier "core" [5]).2 "core"
    0 [5] c3after (by unfold HandlesFresh; decide) rfl).1

/-- C2: with two replies tagged `b` then `a` queued in that arrival order
(correlation ids distinct and nonempty), `recv_response a` returns the reply
tagged `a` while the reply tagged `b` stays queued, and `recv_response b`
then returns it; in general a queued response whose id differs from the
requested one is never removed by that request, and a delivered response
always carries the requested id (no misdelivery). -/
theorem claim_C2_response_correlation (a b : String) (pa pb : Bytes)
    (evs : List RMsg) (hab : a ≠ b) (ha : a ≠ "") (hb : b ≠ "") :
    (recv_response
        { responses := [{ corrId := b, body := pb }, { corrId := a, body := pa }],
          events := evs } a).1 = some { corrId := a, body := pa } ∧
    (recv_response
        { responses := [{ corrId := b, body := pb }, { corrId := a, body := pa }],
          events := evs } a).2.responses = [{ corrId := b, body := pb }] ∧
    (recv_response
        ((recv_response
            { responses := [{ corrId := b, body := pb }, { corrId := a, body := pa }],
              events := evs } a).2) b).1 = some { corrId := b, body := pb } ∧
    (∀ (rt : Router) (msgId : String) (m : RMsg), msgId ≠ "" →
      m ∈ rt.responses → m.corrId ≠ msgId →
      m ∈ (recv_response rt msgId).2.responses) ∧
    (∀ (rt : Router) (msgId : String) (m : RMsg),
      (recv_response rt msgId).1 = some m → msgId ≠ "" → m.corrId = msgId) := by
  have hba : (b == a) = false := by simpa using Ne.symm hab
  have hstate : (recv_response
      { responses := [{ corrId := b, body := pb }, { corrId := a, body := pa }],
        events := evs } a).2
      = { responses := [{ corrId := b, body := pb }], events := evs } := by
    simp [recv_response, ha, extractFirst, hba]
  refine ⟨?_, ?_, ?_, ?_, ?_⟩
  · simp [recv_response, ha, extractFirst, hba]
  · rw [hstate]
  · rw [hstate]
    simp [recv_response, hb, extractFirst]
  · intro rt msgId m hid hmem hne
    simp [recv_response, hid]
    exact extractFirst_keeps _ _ _ hmem (by simpa using hne)
  · intro rt msgId m hr hid
    simp [recv_response, hid] at hr
    simpa using (extractFirst_found _ _ _ hr).2

/-- Witness for C2: with replies tagged B then A queued, asking for A
returns the reply tagged A. -/
theorem claim_C2_witness :
    (recv_response
        { responses := [{ corrId := "B", body := [2] }, { corrId := "A", body := [1] }],
          events := ([] : List RMsg) } "A").1
      = some { corrId := "A", body := [1] } :=
  (claim_C2_response_correlation "A" "B" [1] [2] [] (by decide) (by decide)
    (by decide)).1

/-- C4: over every operation interleaving from the initial router, a message
returned by `recv_response` was enqueued on the responses channel and a
message returned by `recv_event` was enqueued on the events channel; hence a
message enqueued only as an event is never returned by `recv_response` and a
message enqueued only as a response is never returned by `recv_event` — the
two queues are disjoint channels no retrieval crosses. -/
theorem claim_C4_channel_separation (ops : List ROp) (m : RMsg) :
    (∀ msgId : String,
      (recv_response (runOps initRouter ops) msgId).1 = some m →
        m ∈ sentResponses ops) ∧
    ((recv_event (runOps initRouter ops)).1 = some m → m ∈ sentEvents ops) ∧
    (m ∉ sentResponses ops → ∀ msgId : String,
      (recv_response (runOps initRouter ops) msgId).1 ≠ some m) ∧
    (m ∉ sentEvents ops → (recv_event (runOps initRouter ops)).1 ≠ some m) := by
  have hR : ∀ msgId : String,
      (recv_response (runOps initRouter ops) msgId).1 = some m →
        m ∈ sentResponses ops := by
    intro msgId hr
    rcases runOps_responses_sub ops initRouter m
        (recv_response_mem _ _ _ hr) with hin | hin
    · simp [initRouter] at hin
    · exact hin
  have hE : (recv_event (runOps initRouter ops)).1 = some m →
      m ∈ sentEvents ops := by
    intro hr
    rcases runOps_events_sub ops initRouter m
        (recv_event_mem _ _ hr) with hin | hin
    · simp [initRouter] at hin
    · exact hin
  exact ⟨hR, hE, fun hn msgId hr => hn (hR msgId hr), fun hn hr => hn (hE hr)⟩

/-- Witness for C4: an event pushed on the events channel and returned by
`recv_event` is among the trace's sent events. -/
theorem claim_C4_witness :
    { corrId := "", body := [9] } ∈
      sentEvents [ROp.pushE { corrId := "", body := [9] }] :=
  (claim_C4_channel_separation [ROp.pushE { corrId := "", body := [9] }]
    { corrId := "", body := [9] }).2.1 rfl

/-- C6: a vacuum pass snapshots the clock once at its start and reclaims
nothing whose last activity is newer than the staleness threshold measured
at that snapshot: every outstanding record claimed, and every known queue
active, within the threshold survives the pass, and anything the pass does
reclaim had last activity at least `staleness` before the snapshot
(concurrent send/recv/free are atomic steps ordered before or after the
pass in this model, matching the spec's locking). -/
theorem claim_C6_vacuum_staleness (c : Carrier) :
    (∀ r ∈ c.records, c.now < r.claimedAt + staleness →
      r ∈ (carrier_vacuum c).2.records) ∧
    (∀ q ∈ c.known, c.now < c.qActivity q + staleness →
      q ∈ (carrier_vacuum c).2.known) ∧
    (∀ r ∈ c.records, r ∉ (carrier_vacuum c).2.records →
      r.released = false ∧ r.claimedAt + staleness ≤ c.now) ∧
    (∀ q ∈ c.known, q ∉ (carrier_vacuum c).2.known →
      c.queues q = [] ∧ c.qActivity q + staleness ≤ c.now) := by
  refine ⟨?_, ?_, ?_, ?_⟩
  · intro r hr hfresh
    have hd : ¬ (r.claimedAt + staleness ≤ c.now) := by omega
    simp [carrier_vacuum, List.mem_filter, staleRecord, hr, hd]
  · intro q hq hfresh
    have hd : ¬ (c.qActivity q + staleness ≤ c.now) := by omega
    simp [carrier_vacuum, List.mem_filter, idleQueue, hq, hd]
  · intro r hr hnot
    simp [carrier_vacuum, List.mem_filter, staleRecord, hr] at hnot
    exact hnot
  · intro q hq hnot
    simp [carrier_vacuum, List.mem_filter, idleQueue, hq] at hnot
    exact hnot

/-- Witness for C6: a record claimed at the very moment the pass starts is
not reclaimed. -/
theorem claim_C6_witness : c6rec ∈ (carrier_vacuum c6ex).2.records :=
  (claim_C6_vacuum_staleness c6ex).1 c6rec (by decide) (by decide)

/-- C8: in the interleaving semantics of one queue with blocking consumers,
every trace from the initial state keeps the sent payloads equal to the
delivered ones followed by the queue contents, in order — so when the queue
drains, every sent message was delivered to exactly one receiver, with no
duplicates and no drops; moreover a waiting receiver takes a wakeup step
only when a message is actually at the head of the queue, and is cancelled
out of the wait only after shutdown is signaled. -/
theorem claim_C8_no_lost_wakeups (tr : List BEv) (s : BQueue)
    (ht : BTrace initBQueue tr s) :
    List.map Prod.snd s.delivered ++ s.buf = sentOf tr ∧
    (s.buf = [] → List.map Prod.snd s.delivered = sentOf tr) ∧
    (∀ (s1 s2 : BQueue) (rid : Nat) (b : Bytes),
      BStep s1 (BEv.wake rid b) s2 →
        rid ∈ s1.waiting ∧ s1.buf.head? = some b) ∧
    (∀ (s1 s2 : BQueue) (rid : Nat),
      BStep s1 (BEv.cancel rid) s2 → s1.down = true ∧ rid ∈ s1.waiting) := by
  have hmain : List.map Prod.snd s.delivered ++ s.buf = sentOf tr := by
    have := btrace_conservation ht
    simpa [initBQueue] using this
  refine ⟨hmain, ?_, ?_, ?_⟩
  · intro hbuf
    rw [hbuf] at hmain
    simpa using hmain
  · intro s1 s2 rid b hstep
    match hstep with
    | BStep.wake _ _ _ rest hw hb => exact ⟨hw, by rw [hb]; rfl⟩
  · intro s1 s2 rid hstep
    match hstep with
    | BStep.cancel _ _ hd hw => exact ⟨hd, hw⟩

/-- Witness for C8: in the trace send-block-wake, the one sent payload is
delivered exactly once and the queue drains. -/
theorem claim_C8_witness :
    List.map Prod.snd c8sF.delivered ++ c8sF.buf = sentOf c8tr :=
  (claim_C8_no_lost_wakeups c8tr c8sF
    (BTrace.cons (BStep.send initBQueue [1])
      (BTrace.cons (BStep.block _ 0 (by simp [initBQueue]))
        (BTrace.cons (BStep.wake _ 0 [1] [] (by simp [initBQueue]) rfl)
          (BTrace.nil _))))).1

/-- C10: the outcome of freeing a received buffer depends only on the handle
identity, never on the length argument — for any state, handle and two
lengths, `turtlc_free` yields the same status and the same resulting state —
matching the internal `carrier_free(uint8_t*)`, which takes the pointer
alone. -/
theorem claim_C10_free_ignores_length :
    (∀ (c : Carrier) (h l1 l2 : Nat),
      turtlc_free c h l1 = turtlc_free c h l2) ∧
    carrier_free_sig = [CTy.mutBytesPtr] :=
  ⟨fun _ _ _ _ => rfl, rfl⟩

end Turtl
